import Mathlib

/-
Verification of the dungeon-db table/object data model and its
query/mutation engine against its specification.

Conventions of the embedding:
* JavaScript strings are embedded as lists of characters (`Str`), so that
  every operation on them is structurally recursive and kernel-computable.
* The closed variant set of column types, the channel packet shapes and the
  action parameter records are translated from the declaration layer
  (src/unnamed/part_004, the backendutils module).
* The frontend dialog and cell-editor logic is translated from
  src/src/frontend/tableutils.ts, src/src/frontend/tables.ts,
  src/unnamed/part_002, src/unnamed/part_003 and src/unnamed/part_005.
* The schema/row store itself (the Rust backend) is not part of the given
  sources; the definitions for it are modelled from the specification and
  each such definition carries a doc comment saying so.
-/

namespace DungeonDB

/-- Embedding of a JavaScript string as a list of characters. -/
abbrev Str := List Char

/-- Embedding of the JavaScript `trimEnd()` method: removes trailing
whitespace characters. -/
def jsTrimEnd (s : Str) : Str :=
  ((s.reverse).dropWhile (fun c => c.isWhitespace)).reverse

/-- Embedding of the JavaScript `trim()` method: removes leading and
trailing whitespace characters. -/
def jsTrim (s : Str) : Str :=
  jsTrimEnd (s.dropWhile (fun c => c.isWhitespace))

/-- Kinds of primitive column values, from the `ColumnType` union in the
backendutils declaration layer (src/unnamed/part_004). -/
inductive PrimitiveKind
  | Any
  | Boolean
  | Integer
  | Number
  | Date
  | Timestamp
  | Text
  | JSON
  | File
  | Image
deriving DecidableEq, Repr

/-- Closed variant set of column types, translated from the `ColumnType`
union in src/unnamed/part_004. -/
inductive ColumnType
  | primitive (kind : PrimitiveKind)
  | singleSelectDropdown (listId : Nat)
  | multiSelectDropdown (listId : Nat)
  | reference (tableId : Nat)
  | childObject (tableId : Nat)
  | childTable (tableId : Nat)
deriving DecidableEq, Repr

/-- Column metadata, translated from `TableColumnMetadata` in
src/unnamed/part_004. -/
structure ColumnMeta where
  oid : Nat
  name : Str
  columnOrdering : Nat
  columnType : ColumnType
  isNullable : Bool
  isUnique : Bool
  isPrimaryKey : Bool
deriving DecidableEq, Repr

/-- Modelled from the spec: a stored cell of the row store (the backend
store is not among the given sources). A cell holds a nullable stored value
and a list of advisory failed-validation descriptions. -/
structure Cell where
  columnOid : Nat
  value : Option Str
  failedValidations : List Str
deriving DecidableEq, Repr

/-- Modelled from the spec: a row of the row store (backend store not in
the sources). A row has an oid, an optional parent row, an optional most
specific subtype pointer and one cell per applicable column. -/
structure Row where
  oid : Nat
  parentRowOid : Option Nat
  subtypeOid : Option Nat
  cells : List Cell
deriving DecidableEq, Repr

/-- Modelled from the spec: a table record of the schema store (backend
store not in the sources): oid, name, list of master-table oids, whether it
is an object type, its columns and its rows. -/
structure Table where
  oid : Nat
  name : Str
  masters : List Nat
  isObjectType : Bool
  columns : List ColumnMeta
  rows : List Row
deriving DecidableEq, Repr

/-- Dropdown option value, translated from `DropdownValue` in
src/unnamed/part_004. -/
structure DropdownValue where
  trueValue : Option Str
  displayValue : Option Str
deriving DecidableEq, Repr

/-- Modelled from the spec: the whole database state owned by the backend
(not in the sources): the table list and the named dropdown option lists. -/
structure Database where
  tables : List Table
  dropdownLists : List (Nat × List DropdownValue)
deriving DecidableEq, Repr

/-- Modelled from the spec: look up a table by oid in the schema store. -/
def findTable (db : Database) (tableOid : Nat) : Option Table :=
  db.tables.find? (fun t => t.oid == tableOid)

/-- Modelled from the spec: the master-table oid list of a table. -/
def mastersOf (db : Database) (tableOid : Nat) : List Nat :=
  match findTable db tableOid with
  | some t => t.masters
  | none => []

/-- Modelled from the spec: fuel-bounded depth-first reachability in the
master-table directed graph; `reachesMaster db fuel a b` holds when `a` is
reachable from `b` along master edges in at most `fuel` steps. -/
def reachesMaster (db : Database) : Nat → Nat → Nat → Bool
  | 0, _, _ => false
  | fuel + 1, a, b =>
    (mastersOf db b).any (fun m => m == a || reachesMaster db fuel a m)

/-- Modelled from the spec: `a` is a transitive master of `b`. Fuel equal
to the number of tables bounds every simple path in the graph. -/
def isTransitiveMaster (db : Database) (a b : Nat) : Bool :=
  reachesMaster db db.tables.length a b

/-- Modelled from the spec: a proposed master list for `tableOid` would
make the inheritance graph cyclic when some selected master equals
`tableOid` or already has `tableOid` as a transitive master. -/
def wouldBeCyclic (db : Database) (tableOid : Nat) (masters : List Nat) : Bool :=
  masters.any (fun m => m == tableOid || isTransitiveMaster db tableOid m)

/-- Entry streamed by the master-list options query, translated from
`ToggledHierarchicalMetadata` in src/unnamed/part_004 (the hierarchy level
annotation is not relevant to the verified claims and is omitted). -/
structure MasterListOption where
  oid : Nat
  name : Str
  isDisabled : Bool
deriving DecidableEq, Repr

/-- Modelled from the spec: whether a single candidate master would be
disabled for `tableOid` (no table given means a fresh table is being
created, for which no candidate can close a cycle). -/
def masterOptionDisabled (db : Database) (tableOid : Option Nat) (candidate : Nat) : Bool :=
  match tableOid with
  | none => false
  | some t => candidate == t || isTransitiveMaster db t candidate

/-- Modelled from the spec: `getMasterListOptions` enumerates all candidate
master tables for `tableOid`, marking as disabled exactly the candidates
that would introduce an inheritance cycle. Object types may always be
inherited from; plain tables only when `allowInheritanceFromTables`. -/
def getMasterListOptions (db : Database) (tableOid : Option Nat)
    (allowInheritanceFromTables : Bool) : List MasterListOption :=
  (db.tables.filter (fun t => allowInheritanceFromTables || t.isObjectType)).map
    (fun t => { oid := t.oid, name := t.name,
                isDisabled := masterOptionDisabled db tableOid t.oid })

/-- Structural error taxonomy of the engine, from the specification error
handling design. -/
inductive DbError
  | NotFoundError
  | NameRequiredError
  | CyclicInheritanceError
  | InvalidSubtypeError
deriving DecidableEq, Repr

/-- Modelled from the spec: a fresh table oid, one larger than every
existing table oid. -/
def freshOid (db : Database) : Nat :=
  (db.tables.map (fun t => t.oid)).foldr max 0 + 1

/-- Modelled from the spec: `createTable(name, masterTableIds)` fails with
`NameRequiredError` on an empty or whitespace-only name, fails with
`CyclicInheritanceError` when the master list would make the inheritance
graph cyclic, and otherwise commits a new table. An error result commits
nothing, so the schema is unchanged in every failure case. -/
def createTable (db : Database) (name : Str) (masterTableIds : List Nat) :
    Except DbError (Database × Nat) :=
  if jsTrim name = [] then
    .error .NameRequiredError
  else
    let oid := freshOid db
    if wouldBeCyclic db oid masterTableIds then
      .error .CyclicInheritanceError
    else
      .ok ({ db with
              tables := db.tables ++
                [{ oid := oid, name := name, masters := masterTableIds,
                   isObjectType := false, columns := [], rows := [] }] }, oid)

/-- Modelled from the spec: `editTableMetadata(tableOid, name,
masterTableIds)` performs the same validation as `createTable` and
additionally fails with `NotFoundError` when the table is unknown. An error
result commits nothing, so the schema is unchanged in every failure case. -/
def editTableMetadata (db : Database) (tableOid : Nat) (name : Str)
    (masterTableIds : List Nat) : Except DbError Database :=
  if jsTrim name = [] then
    .error .NameRequiredError
  else if (findTable db tableOid).isNone then
    .error .NotFoundError
  else if wouldBeCyclic db tableOid masterTableIds then
    .error .CyclicInheritanceError
  else
    .ok { db with
           tables := db.tables.map (fun t =>
             if t.oid == tableOid then
               { t with name := name, masters := masterTableIds }
             else t) }

/-- Modelled from the spec: renumbering step used on column insertion;
an ordering value at or after the insertion position shifts up by one. -/
def ordUp (i x : Nat) : Nat :=
  if i ≤ x then x + 1 else x

/-- Modelled from the spec: renumbering step used on column removal; an
ordering value after the removed position shifts down by one. -/
def ordDown (o x : Nat) : Nat :=
  if o < x then x - 1 else x

/-- Modelled from the spec: shift up by one the ordering of every column
whose ordering is at least `i` (backend column store not in the sources). -/
def shiftUpFrom (i : Nat) (cols : List ColumnMeta) : List ColumnMeta :=
  cols.map (fun c =>
    if i ≤ c.columnOrdering then { c with columnOrdering := c.columnOrdering + 1 } else c)

/-- Modelled from the spec: shift down by one the ordering of every column
whose ordering is greater than `o` (backend column store not in the
sources). -/
def shiftDownAfter (o : Nat) (cols : List ColumnMeta) : List ColumnMeta :=
  cols.map (fun c =>
    if o < c.columnOrdering then { c with columnOrdering := c.columnOrdering - 1 } else c)

/-- Modelled from the spec: insert a column at ordering position `i`,
shifting the ordering of later columns up by one. -/
def insertColumnAt (cols : List ColumnMeta) (i : Nat) (c : ColumnMeta) : List ColumnMeta :=
  shiftUpFrom i cols ++ [{ c with columnOrdering := i }]

/-- Modelled from the spec: `createColumn` with a null ordering appends the
new column at the end; with a given ordering it inserts at that position,
shifting later columns up by one (backend column store not in the
sources). -/
def createColumn (cols : List ColumnMeta) (ordering : Option Nat) (c : ColumnMeta) :
    List ColumnMeta :=
  match ordering with
  | none => cols ++ [{ c with columnOrdering := cols.length }]
  | some i => insertColumnAt cols i c

/-- Remove the first column with the given oid, returning it and the
remaining columns. -/
def removeFirstColumn (oid : Nat) : List ColumnMeta → Option (ColumnMeta × List ColumnMeta)
  | [] => none
  | c :: cs =>
    if c.oid == oid then some (c, cs)
    else (removeFirstColumn oid cs).map (fun p => (p.1, c :: p.2))

/-- Modelled from the spec: `deleteColumn` removes the column and renumbers
the remaining columns to stay dense (backend column store not in the
sources). -/
def deleteColumn (cols : List ColumnMeta) (oid : Nat) : List ColumnMeta :=
  match removeFirstColumn oid cols with
  | none => cols
  | some (d, rest) => shiftDownAfter d.columnOrdering rest

/-- Modelled from the spec: `reorderColumn(columnOid, oldOrdering,
newOrdering | null)` removes the column from its old position, renumbers
the intervening columns, and reinserts it at the new position, where null
means move to the end (backend column store not in the sources). -/
def reorderColumn (cols : List ColumnMeta) (oid : Nat) (oldOrdering : Nat)
    (newOrdering : Option Nat) : List ColumnMeta :=
  match removeFirstColumn oid cols with
  | none => cols
  | some (d, rest) =>
    let rest := shiftDownAfter oldOrdering rest
    let j := newOrdering.getD rest.length
    insertColumnAt rest j d

/-- Schema-editing operations on the column list of one table, as in the
closed action set (`createTableColumn`, `deleteTableColumn`,
`reorderTableColumn` of src/unnamed/part_004). -/
inductive ColOp
  | create (ordering : Option Nat) (c : ColumnMeta)
  | delete (oid : Nat)
  | reorder (oid : Nat) (oldOrdering : Nat) (newOrdering : Option Nat)
deriving DecidableEq, Repr

/-- Apply one column operation. -/
def applyColOp (cols : List ColumnMeta) : ColOp → List ColumnMeta
  | .create ordering c => createColumn cols ordering c
  | .delete oid => deleteColumn cols oid
  | .reorder oid o n => reorderColumn cols oid o n

/-- Apply a sequence of column operations, left to right. -/
def applyColOps (cols : List ColumnMeta) : List ColOp → List ColumnMeta
  | [] => cols
  | op :: ops => applyColOps (applyColOp cols op) ops

/-- A column operation is valid in a state when its position argument is in
range and, for a reorder, the caller-supplied old ordering is the ordering
the column actually has (which is what the UI passes). -/
def colOpValid (cols : List ColumnMeta) : ColOp → Bool
  | .create ordering _ =>
    match ordering with
    | none => true
    | some i => i ≤ cols.length
  | .delete _ => true
  | .reorder oid o n =>
    (cols.all (fun c => c.oid != oid || c.columnOrdering == o)) &&
      (match n with
       | none => true
       | some j => j + 1 ≤ cols.length)

/-- A sequence of column operations is valid when each operation is valid
in the state it is applied to. -/
def colOpsValid (cols : List ColumnMeta) : List ColOp → Bool
  | [] => true
  | op :: ops => colOpValid cols op && colOpsValid (applyColOp cols op) ops

/-- Density invariant: the ordering values of the columns are exactly
`0 .. n-1` with no gaps and no duplicates. -/
def denseOrdering (cols : List ColumnMeta) : Prop :=
  (cols.map (fun c => c.columnOrdering)).Perm (List.range cols.length)

instance (cols : List ColumnMeta) : Decidable (denseOrdering cols) :=
  inferInstanceAs (Decidable (List.Perm _ _))

/-- Modelled from the spec: the stored value of the cell of a row at a
given column (backend row store not in the sources). -/
def cellValue (r : Row) (columnOid : Nat) : Option Str :=
  match r.cells.find? (fun c => c.columnOid == columnOid) with
  | some c => c.value
  | none => none

/-- Modelled from the spec: the columns a table itself defines. -/
def ownColumns (db : Database) (tableOid : Nat) : List ColumnMeta :=
  match findTable db tableOid with
  | some t => t.columns
  | none => []

/-- Modelled from the spec: fuel-bounded collection of the columns
inherited from the (transitive) master tables of a table. -/
def inheritedColumns (db : Database) : Nat → Nat → List ColumnMeta
  | 0, _ => []
  | fuel + 1, tableOid =>
    (mastersOf db tableOid).flatMap
      (fun m => inheritedColumns db fuel m ++ ownColumns db m)

/-- Modelled from the spec: the visible columns of a table are the
inherited columns of its master tables plus its own columns. -/
def visibleColumns (db : Database) (tableOid : Nat) : List ColumnMeta :=
  inheritedColumns db db.tables.length tableOid ++ ownColumns db tableOid

/-- Modelled from the spec: the true values of a named dropdown option
list. -/
def dropdownOptions (db : Database) (listId : Nat) : List (Option Str) :=
  match db.dropdownLists.find? (fun p => p.1 == listId) with
  | some p => p.2.map (fun v => v.trueValue)
  | none => []

/-- Parse a decimal row-oid string, as the stored true value of a
reference cell. -/
def strToNat? (s : Str) : Option Nat :=
  match s with
  | [] => none
  | _ =>
    s.foldl (fun acc c =>
      match acc with
      | none => none
      | some n => if c.isDigit then some (n * 10 + (c.toNat - 48)) else none)
      (some 0)

/-- Modelled from the spec: whether a stored reference value identifies an
existing row of the target table. -/
def referencedRowExists (db : Database) (targetTableOid : Nat) (s : Str) : Bool :=
  match strToNat? s with
  | some rowOid =>
    match findTable db targetTableOid with
    | some t => t.rows.any (fun r => r.oid == rowOid)
    | none => false
  | none => false

/-- Modelled from the spec: whether another row of the same table already
stores the same non-null value in the same column. -/
def hasDuplicateValue (t : Table) (columnOid rowOid : Nat) (v : Option Str) : Bool :=
  v != none && t.rows.any (fun r => r.oid != rowOid && cellValue r columnOid == v)

def msgValueRequired : Str := "value is required.".toList

def msgValueUnique : Str := "value must be unique.".toList

def msgPrimaryKeyRequired : Str := "primary key requires a value.".toList

def msgPrimaryKeyUnique : Str := "primary key must be unique.".toList

def msgPrimaryKeyStable : Str := "primary key must be a stable, non-blob type.".toList

def msgDropdownOption : Str := "value must be one of the dropdown options.".toList

def msgReferenceExists : Str := "value must reference an existing row.".toList

/-- Modelled from the spec: validation check 1, nullability. -/
def checkNullability (col : ColumnMeta) (v : Option Str) : List Str :=
  if !col.isNullable && v == none then [msgValueRequired] else []

/-- Modelled from the spec: validation check 2, uniqueness. -/
def checkUniqueness (t : Table) (col : ColumnMeta) (rowOid : Nat) (v : Option Str) : List Str :=
  if col.isUnique && hasDuplicateValue t col.oid rowOid v then [msgValueUnique] else []

/-- Whether a column type stores a binary blob. -/
def isBlobType : ColumnType → Bool
  | .primitive .File => true
  | .primitive .Image => true
  | _ => false

/-- Modelled from the spec: validation check 3, primary key, which implies
nullability and uniqueness and additionally requires a stable non-blob
type. -/
def checkPrimaryKey (t : Table) (col : ColumnMeta) (rowOid : Nat) (v : Option Str) : List Str :=
  if col.isPrimaryKey then
    (if v == none then [msgPrimaryKeyRequired] else []) ++
      (if hasDuplicateValue t col.oid rowOid v then [msgPrimaryKeyUnique] else []) ++
        (if isBlobType col.columnType then [msgPrimaryKeyStable] else [])
  else []

/-- Modelled from the spec: validation check 4, type-specific: a dropdown
value must exist in its option list and a reference value must identify an
existing row of the target table. -/
def checkTypeSpecific (db : Database) (col : ColumnMeta) (v : Option Str) : List Str :=
  match v, col.columnType with
  | some s, .singleSelectDropdown listId =>
    if (dropdownOptions db listId).contains (some s) then [] else [msgDropdownOption]
  | some s, .reference tableId =>
    if referencedRowExists db tableId s then [] else [msgReferenceExists]
  | _, _ => []

/-- Modelled from the spec: the four validation checks for a cell write, in
the stated order. -/
def validationChecks (db : Database) (t : Table) (col : ColumnMeta) (rowOid : Nat)
    (v : Option Str) : List (List Str) :=
  [checkNullability col v,
   checkUniqueness t col rowOid v,
   checkPrimaryKey t col rowOid v,
   checkTypeSpecific db col v]

/-- Modelled from the spec: run every validation check for a cell write,
accumulating every applicable failure without short-circuiting. -/
def validateCell (db : Database) (t : Table) (col : ColumnMeta) (rowOid : Nat)
    (v : Option Str) : List Str :=
  (validationChecks db t col rowOid v).foldr (fun a b => a ++ b) []

/-- Modelled from the spec: look up the metadata of a column of a table. -/
def findColumnMeta (t : Table) (columnOid : Nat) : Option ColumnMeta :=
  t.columns.find? (fun c => c.oid == columnOid)

/-- Modelled from the spec: overwrite the stored value of one cell of a row
and record the failed validations computed for the written value. -/
def writeCell (columnOid : Nat) (v : Option Str) (fails : List Str) (cs : List Cell) :
    List Cell :=
  cs.map (fun c =>
    if c.columnOid == columnOid then { c with value := v, failedValidations := fails }
    else c)

/-- Modelled from the spec: within one table, overwrite the stored value of
the cell at (rowOid, columnOid), re-running validation for that cell; the
write is stored regardless of the validation outcome. -/
def updateCellInTable (db : Database) (t : Table) (rowOid columnOid : Nat)
    (v : Option Str) : Table :=
  match findColumnMeta t columnOid with
  | none => t
  | some col =>
    let fails := validateCell db t col rowOid v
    { t with rows := t.rows.map (fun r =>
        if r.oid == rowOid then { r with cells := writeCell columnOid v fails r.cells }
        else r) }

/-- Modelled from the spec: the `updateTableCellStoredAsPrimitiveValue`
action of the backend (not in the sources): overwrites the stored value of
a cell, re-runs validation for it, and never rejects the write. -/
def updateTableCellStoredAsPrimitiveValue (db : Database) (tableOid rowOid columnOid : Nat)
    (v : Option Str) : Database :=
  { db with tables := db.tables.map (fun t =>
      if t.oid == tableOid then updateCellInTable db t rowOid columnOid v else t) }

/-- Modelled from the spec: read one stored cell back from the store. -/
def readCell (db : Database) (tableOid rowOid columnOid : Nat) : Option Cell :=
  (findTable db tableOid).bind (fun t =>
    (t.rows.find? (fun r => r.oid == rowOid)).bind (fun r =>
      r.cells.find? (fun c => c.columnOid == columnOid)))

/-- Cell payload of the streaming queries, translated from
`TableColumnCell` in src/unnamed/part_004. -/
structure TableColumnCell where
  tableOid : Nat
  rowOid : Nat
  columnOid : Nat
  columnName : Str
  columnType : ColumnType
  trueValue : Option Str
  displayValue : Option Str
  failedValidations : List Str
deriving DecidableEq, Repr

/-- Packet streamed by `get_table_data`, translated from
`TableCellChannelPacket` in src/unnamed/part_004: either a row marker
(row oid plus one-based row index) or one cell. -/
inductive TableCellChannelPacket
  | marker (rowOid rowIndex : Nat)
  | cell (c : TableColumnCell)
deriving DecidableEq, Repr

/-- Modelled from the spec: build the streamed cell payload for one column
of one row (the display value is derived data and is modelled as the stored
value). -/
def mkCellPacket (tableOid : Nat) (col : ColumnMeta) (r : Row) : TableColumnCell :=
  { tableOid := tableOid, rowOid := r.oid, columnOid := col.oid,
    columnName := col.name, columnType := col.columnType,
    trueValue := cellValue r col.oid, displayValue := cellValue r col.oid,
    failedValidations :=
      match r.cells.find? (fun c => c.columnOid == col.oid) with
      | some c => c.failedValidations
      | none => [] }

/-- Modelled from the spec: emit, for each row in order, one row marker
carrying the row oid and its one-based index, followed immediately by one
cell packet per visible column. -/
def emitRows (tableOid : Nat) (cols : List ColumnMeta) :
    Nat → List Row → List TableCellChannelPacket
  | _, [] => []
  | idx, r :: rs =>
    .marker r.oid idx ::
      (cols.map (fun col => .cell (mkCellPacket tableOid col r)) ++
        emitRows tableOid cols (idx + 1) rs)

/-- Modelled from the spec: the rows of a table belonging to the requested
parent-row scope (top level when no parent row is given). -/
def scopedRows (db : Database) (tableOid : Nat) (parentRowOid : Option Nat) : List Row :=
  match findTable db tableOid with
  | none => []
  | some t => t.rows.filter (fun r => r.parentRowOid == parentRowOid)

/-- Modelled from the spec: the page of rows served by a one-indexed,
stateless paged read. -/
def pageRows (db : Database) (tableOid : Nat) (parentRowOid : Option Nat)
    (pageNum pageSize : Nat) : List Row :=
  ((scopedRows db tableOid parentRowOid).drop ((pageNum - 1) * pageSize)).take pageSize

/-- Modelled from the spec: the `get_table_data` streaming query (backend
not in the sources): emits row markers and cells for one page of rows. -/
def getTableData (db : Database) (tableOid : Nat) (parentRowOid : Option Nat)
    (pageNum pageSize : Nat) : List TableCellChannelPacket :=
  emitRows tableOid (visibleColumns db tableOid) ((pageNum - 1) * pageSize + 1)
    (pageRows db tableOid parentRowOid pageNum pageSize)

/-- Whether a streamed packet is a row marker. -/
def isRowMarker : TableCellChannelPacket → Bool
  | .marker _ _ => true
  | .cell _ => false

/-- Packet streamed by `get_table_row` and `get_object_data`, translated
from `TableRowCellChannelPacket` in src/unnamed/part_004: either an
existence header carrying the resolved concrete subtype oid, or one cell
together with its column ordering. -/
inductive TableRowCellChannelPacket
  | header (rowExists : Bool) (tableOid : Nat)
  | cell (c : TableColumnCell) (columnOrdering : Nat)
deriving DecidableEq, Repr

/-- Modelled from the spec: look up a row of a table by oid. -/
def resolveRow (db : Database) (tableOid rowOid : Nat) : Option Row :=
  match findTable db tableOid with
  | none => none
  | some t => t.rows.find? (fun r => r.oid == rowOid)

/-- Modelled from the spec: the concrete subtype a row resolves to: its
subtype pointer when retyped, otherwise the base table itself. -/
def rowSubtype (tableOid : Nat) (r : Row) : Nat :=
  r.subtypeOid.getD tableOid

/-- Modelled from the spec: the `get_table_row` streaming query (backend
not in the sources): first an existence header with the resolved subtype;
when the row does not exist the stream ends immediately, otherwise one cell
per visible column of the resolved subtype follows. -/
def getTableRow (db : Database) (tableOid rowOid : Nat) : List TableRowCellChannelPacket :=
  match resolveRow db tableOid rowOid with
  | none => [.header false tableOid]
  | some r =>
    .header true (rowSubtype tableOid r) ::
      (visibleColumns db (rowSubtype tableOid r)).map
        (fun col => .cell (mkCellPacket tableOid col r) col.columnOrdering)

/-- Modelled from the spec: `get_object_data` has a shape identical to
`get_table_row`, used when the row is viewed as a standalone object. -/
def getObjectData (db : Database) (objTypeOid objRowOid : Nat) :
    List TableRowCellChannelPacket :=
  getTableRow db objTypeOid objRowOid

/-- Whether a row-stream packet is the existence header. -/
def isRowHeader : TableRowCellChannelPacket → Bool
  | .header _ _ => true
  | .cell _ _ => false

/-- Name dispatched by the create/edit table dialog of
src/unnamed/part_002 (`createTableAsync` and `editTableAsync`): the entered
name is trimmed, and when the trimmed name is empty a warning is shown and
nothing is dispatched; otherwise the trimmed name is dispatched. -/
def dialogCreateTableName (entered : Str) : Option Str :=
  let tableName := jsTrim entered
  if tableName = [] then none else some tableName

/-- Name dispatched by `createTable` of src/src/frontend/tables.ts: when
the name is empty or trims to empty an error message is shown and nothing
is dispatched; otherwise the name is dispatched exactly as entered, without
trimming. -/
def tablesTsCreateTableName (entered : Str) : Option Str :=
  if entered = [] || jsTrim entered = [] then none else some entered

/-- Abstraction of the JavaScript `Date` facilities used by the cell
editors: `parse` returns the parsed time of a string accepted by
`Date.parse` and `none` where `Date.parse` yields `NaN`; `toISOString`
renders a parsed time in the fixed ISO-8601 form. -/
structure JsDate where
  parse : Str → Option Int
  toISOString : Int → Str

/-- Date/timestamp regularization of `setCellPrimitiveValueAsync` in
src/src/frontend/tableutils.ts: a non-empty value of a Date- or
Timestamp-typed cell that `Date.parse` accepts is replaced by its
ISO-8601 rendering; any other value is left unchanged. -/
def normalizePrimitiveValue (js : JsDate) (kind : PrimitiveKind) (v : Option Str) :
    Option Str :=
  match v with
  | none => none
  | some s =>
    if s = [] then some s
    else
      match kind with
      | .Date =>
        match js.parse s with
        | some time => some (js.toISOString time)
        | none => some s
      | .Timestamp =>
        match js.parse s with
        | some time => some (js.toISOString time)
        | none => some s
      | _ => some s

/-- Final value placed in every `updateTableCellStoredAsPrimitiveValue`
action of the cell editors: the empty string is converted to null
(`value: newPrimitiveValue == '' ? null : newPrimitiveValue` in
src/src/frontend/tableutils.ts and src/unnamed/part_003). -/
def emptyToNull (v : Option Str) : Option Str :=
  match v with
  | none => none
  | some s => if s = [] then none else some s

/-- Value dispatched by `setCellPrimitiveValueAsync` in
src/src/frontend/tableutils.ts for a free-text primitive cell edit: the
editor text is trimmed of trailing whitespace by its caller, regularized
for Date/Timestamp cells, and an empty result is dispatched as null. -/
def setCellPrimitiveValueDispatch (js : JsDate) (kind : PrimitiveKind) (text : Str) :
    Option Str :=
  emptyToNull (normalizePrimitiveValue js kind (some (jsTrimEnd text)))

/-- Value dispatched by the `focusout` handler of the editable cell in
src/unnamed/part_003 (`addTableColumnCellToRow`): trailing whitespace is
trimmed, Date/Timestamp values accepted by `Date.parse` are converted to
ISO-8601, and an empty result is dispatched as null. -/
def focusoutDispatch (js : JsDate) (kind : PrimitiveKind) (raw : Str) : Option Str :=
  let v := jsTrimEnd raw
  let v :=
    match kind with
    | .Date =>
      match js.parse v with
      | some time => js.toISOString time
      | none => v
    | .Timestamp =>
      match js.parse v with
      | some time => js.toISOString time
      | none => v
    | _ => v
  if v = [] then none else some v

/-- Value dispatched by the `change` handler of a single-select dropdown or
reference cell (src/src/frontend/tableutils.ts and src/unnamed/part_003):
the empty selection is dispatched as null. -/
def dropdownChangeDispatch (selected : Str) : Option Str :=
  if selected = [] then none else some selected

/-- Character string one, as stored for a checked Boolean cell. -/
def strOne : Str := "1".toList

/-- Character string zero, as stored for an unchecked Boolean cell. -/
def strZero : Str := "0".toList

/-- Value dispatched by the Boolean checkbox editor of
src/src/frontend/tableutils.ts (`updateTableColumnCell`): the string one
when checked, the string zero otherwise. -/
def booleanInputDispatch (checked : Bool) : Option Str :=
  some (if checked then strOne else strZero)

/-- Value dispatched when a null Boolean cell is clicked in
src/src/frontend/tableutils.ts: the string one. -/
def booleanNullClickDispatch : Option Str :=
  some strOne

/-- Tooltip text produced by the validation-error block at the end of
`updateTableColumnCell` in src/src/frontend/tableutils.ts: when the failed
validation list is non-empty the cell gets an error tooltip joining every
failure description with a newline; otherwise no tooltip is shown. -/
def newlineStr : Str := "\n".toList

def renderValidationTooltip (failedValidations : List Str) : Option Str :=
  if failedValidations.length > 0 then
    some ((failedValidations.intersperse newlineStr).flatten)
  else none

/-- Field name tableOid of the action payloads. -/
def fieldTableOid : Str := "tableOid".toList

/-- Field name parentRowOid of the action payloads. -/
def fieldParentRowOid : Str := "parentRowOid".toList

/-- Field name rowOid of the action payloads. -/
def fieldRowOid : Str := "rowOid".toList

/-- Field names of the `insertTableRow` action parameters required by the
`Action` union of src/unnamed/part_004: tableOid, parentRowOid (nullable
but required) and rowOid. -/
def insertTableRowRequiredFields : List Str :=
  [fieldTableOid, fieldParentRowOid, fieldRowOid]

/-- Field names of the `insertTableRow` payload actually dispatched by the
Insert New Row context-menu action in src/unnamed/part_005
(`addRowToTable`): only tableOid and rowOid are supplied. -/
def insertRowContextMenuFields : List Str :=
  [fieldTableOid, fieldRowOid]

/-
Concrete data used by the witnesses.
-/

/-- Table name Items, used by concrete witnesses. -/
def itemsName : Str := "Items".toList

/-- Table name Weapons, used by concrete witnesses. -/
def weaponsName : Str := "Weapons".toList

/-- Table name Monsters, used by concrete witnesses. -/
def monstersName : Str := "Monsters".toList

/-- Witness database: table Items (oid 1, no masters) and its subtype
Weapons (oid 2, master Items), as in the inheritance scenario of the
specification. -/
def dbW : Database :=
  { tables :=
      [{ oid := 1, name := itemsName, masters := [], isObjectType := false,
         columns := [], rows := [] },
       { oid := 2, name := weaponsName, masters := [1], isObjectType := false,
         columns := [], rows := [] }],
    dropdownLists := [] }

/-
Claim theorems.
-/

/-- C1: every candidate streamed by `getMasterListOptions(tableOid, allow)`
is marked disabled exactly when selecting it as a master would make the
inheritance graph cyclic, that is, when the candidate equals the table or
the table is already a transitive master of the candidate; every master
list that would make the graph cyclic is rejected by `createTable` and
`editTableMetadata` with `CyclicInheritanceError` (an error result commits
nothing, so the schema is unchanged); and a list would be cyclic exactly
when one of its members is such a candidate. -/
theorem masterList_cycle_rejection :
    (∀ (db : Database) (t : Nat) (allow : Bool) (opt : MasterListOption),
        opt ∈ getMasterListOptions db (some t) allow →
        (opt.isDisabled = true ↔ (opt.oid = t ∨ isTransitiveMaster db t opt.oid = true))) ∧
    (∀ (db : Database) (name : Str) (masters : List Nat),
        jsTrim name ≠ [] →
        wouldBeCyclic db (freshOid db) masters = true →
        createTable db name masters = .error .CyclicInheritanceError) ∧
    (∀ (db : Database) (t : Nat) (name : Str) (masters : List Nat),
        jsTrim name ≠ [] →
        (findTable db t).isSome →
        wouldBeCyclic db t masters = true →
        editTableMetadata db t name masters = .error .CyclicInheritanceError) ∧
    (∀ (db : Database) (t : Nat) (masters : List Nat),
        wouldBeCyclic db t masters = true ↔
          ∃ m ∈ masters, m = t ∨ isTransitiveMaster db t m = true) := by
  refine ⟨?_, ?_, ?_, ?_⟩
  · intro db t allow opt hmem
    simp only [getMasterListOptions, List.mem_map, List.mem_filter] at hmem
    obtain ⟨tbl, _, rfl⟩ := hmem
    simp [masterOptionDisabled]
  · intro db name masters hname hcyc
    simp [createTable, hname, hcyc]
  · intro db t name masters hname hfound hcyc
    have hsome : ¬ (findTable db t).isNone := by
      simp only [Option.isNone_iff_eq_none]
      intro h
      rw [h] at hfound
      simp at hfound
    simp [editTableMetadata, hname, hsome, hcyc]
  · intro db t masters
    simp [wouldBeCyclic, List.any_eq_true]

/-- Witness for C1 at the Items/Weapons database: Items itself is a
disabled candidate for Items, `createTable` rejects a master list naming
the fresh table, and `editTableMetadata` rejects making Items inherit from
its own subtype Weapons. -/
theorem masterList_cycle_rejection_witness :
    (({ oid := 1, name := itemsName, isDisabled := true } : MasterListOption).isDisabled = true ↔
      (({ oid := 1, name := itemsName, isDisabled := true } : MasterListOption).oid = 1 ∨
        isTransitiveMaster dbW 1 ({ oid := 1, name := itemsName, isDisabled := true } : MasterListOption).oid = true)) ∧
    createTable dbW monstersName [3] = .error .CyclicInheritanceError ∧
    editTableMetadata dbW 1 itemsName [2] = .error .CyclicInheritanceError :=
  ⟨masterList_cycle_rejection.1 dbW 1 true
      { oid := 1, name := itemsName, isDisabled := true } (by decide),
   masterList_cycle_rejection.2.1 dbW monstersName [3] (by decide) (by decide),
   masterList_cycle_rejection.2.2.1 dbW 1 itemsName [2] (by decide) (by decide) (by decide)⟩

/-
Helper lemmas for the column ordering density invariant.
-/

theorem map_ordUp_range_perm (n : Nat) :
    ∀ i : Nat, i ≤ n → (((List.range n).map (ordUp i)) ++ [i]).Perm (List.range (n + 1)) := by
  induction n with
  | zero =>
    intro i h
    have h0 : i = 0 := Nat.le_zero.mp h
    subst h0
    decide
  | succ n ih =>
    intro i h
    rcases Nat.lt_or_ge i (n + 1) with h1 | h1
    · have hin : i ≤ n := Nat.lt_succ_iff.mp h1
      have hstep : ordUp i n = n + 1 := by simp [ordUp, hin]
      have e1 : ((List.range (n + 1)).map (ordUp i)) ++ [i]
          = (List.range n).map (ordUp i) ++ ([n + 1] ++ [i]) := by
        rw [List.range_succ, List.map_append]
        simp [hstep]
      have p1 : ((List.range n).map (ordUp i) ++ ([n + 1] ++ [i])).Perm
          ((List.range n).map (ordUp i) ++ ([i] ++ [n + 1])) :=
        List.Perm.append_left _ List.perm_append_comm
      have p2 : ((List.range n).map (ordUp i) ++ ([i] ++ [n + 1])).Perm
          (List.range (n + 1) ++ [n + 1]) := by
        rw [← List.append_assoc]
        exact List.Perm.append_right _ (ih i hin)
      have e2 : List.range (n + 1) ++ [n + 1] = List.range (n + 2) :=
        (List.range_succ (n + 1)).symm
      rw [e1]
      exact (p1.trans p2).trans (e2 ▸ List.Perm.refl _)
    · have heq : i = n + 1 := Nat.le_antisymm h h1
      subst heq
      have hid : (List.range (n + 1)).map (ordUp (n + 1)) = List.range (n + 1) := by
        have hcong : ∀ a ∈ List.range (n + 1), ordUp (n + 1) a = id a := by
          intro a ha
          have : a < n + 1 := List.mem_range.mp ha
          simp [ordUp, Nat.not_le.mpr this]
        rw [List.map_congr_left hcong, List.map_id]
      rw [hid, ← List.range_succ]

theorem erase_map_ordDown_perm (m : Nat) :
    ∀ o : Nat, o ≤ m →
      ((((List.range (m + 1)).erase o).map (ordDown o))).Perm (List.range m) := by
  induction m with
  | zero =>
    intro o h
    have h0 : o = 0 := Nat.le_zero.mp h
    subst h0
    decide
  | succ m ih =>
    intro o h
    rcases Nat.lt_or_ge o (m + 1) with h1 | h1
    · have hom : o ≤ m := Nat.lt_succ_iff.mp h1
      have hmem : o ∈ List.range (m + 1) := List.mem_range.mpr h1
      rw [List.range_succ, List.erase_append_left _ hmem, List.map_append]
      have hstep : (List.map (ordDown o) [m + 1]) = [m] := by
        simp [ordDown, h1]
      rw [hstep]
      have hp : (((List.range (m + 1)).erase o).map (ordDown o) ++ [m]).Perm
          (List.range m ++ [m]) := List.Perm.append_right _ (ih o hom)
      rw [← List.range_succ] at hp
      exact hp
    · have heq : o = m + 1 := Nat.le_antisymm h h1
      subst heq
      have hnmem : (m + 1) ∉ List.range (m + 1) := by simp
      rw [List.range_succ, List.erase_append_right _ hnmem]
      have he : List.erase [m + 1] (m + 1) = [] := by simp
      rw [he, List.append_nil]
      have hid : (List.range (m + 1)).map (ordDown (m + 1)) = List.range (m + 1) := by
        have hcong : ∀ a ∈ List.range (m + 1), ordDown (m + 1) a = id a := by
          intro a ha
          have halt : a < m + 1 := List.mem_range.mp ha
          have hna : ¬ (m + 1 < a) := Nat.not_lt.mpr (Nat.le_of_lt halt)
          simp [ordDown, hna]
        rw [List.map_congr_left hcong, List.map_id]
      rw [hid]

theorem shiftUpFrom_map_ordering (i : Nat) (cols : List ColumnMeta) :
    (shiftUpFrom i cols).map (fun c => c.columnOrdering)
      = (cols.map (fun c => c.columnOrdering)).map (ordUp i) := by
  simp only [shiftUpFrom, List.map_map]
  apply List.map_congr_left
  intro c _
  by_cases h : i ≤ c.columnOrdering <;> simp [ordUp, h]

theorem shiftDownAfter_map_ordering (o : Nat) (cols : List ColumnMeta) :
    (shiftDownAfter o cols).map (fun c => c.columnOrdering)
      = (cols.map (fun c => c.columnOrdering)).map (ordDown o) := by
  simp only [shiftDownAfter, List.map_map]
  apply List.map_congr_left
  intro c _
  by_cases h : o < c.columnOrdering <;> simp [ordDown, h]

theorem removeFirstColumn_spec (oid : Nat) :
    ∀ (cols : List ColumnMeta) (d : ColumnMeta) (rest : List ColumnMeta),
      removeFirstColumn oid cols = some (d, rest) →
      cols.Perm (d :: rest) ∧ d.oid = oid := by
  intro cols
  induction cols with
  | nil =>
    intro d rest h
    simp [removeFirstColumn] at h
  | cons c cs ih =>
    intro d rest h
    by_cases hc : c.oid == oid
    · rw [removeFirstColumn, if_pos hc] at h
      obtain ⟨rfl, rfl⟩ := Prod.mk.injEq .. ▸ Option.some.injEq .. ▸ h
      exact ⟨List.Perm.refl _, beq_iff_eq.mp hc⟩
    · rw [removeFirstColumn, if_neg hc] at h
      cases hrec : removeFirstColumn oid cs with
      | none =>
        rw [hrec] at h
        simp at h
      | some p =>
        rw [hrec] at h
        obtain ⟨d0, rest0⟩ := p
        simp at h
        obtain ⟨hd, hr⟩ := h
        obtain ⟨hperm, hoid⟩ := ih d0 rest0 hrec
        subst hd
        subst hr
        refine ⟨?_, hoid⟩
        have p1 : (c :: cs).Perm (c :: d0 :: rest0) := List.Perm.cons c hperm
        exact p1.trans (List.Perm.swap d0 c rest0)

/-- Dense ordering is preserved by a valid `createColumn`. -/
theorem denseOrdering_createColumn (cols : List ColumnMeta) (ordering : Option Nat)
    (c : ColumnMeta) (hd : denseOrdering cols)
    (hv : ∀ i, ordering = some i → i ≤ cols.length) :
    denseOrdering (createColumn cols ordering c) := by
  cases ordering with
  | none =>
    unfold denseOrdering createColumn
    rw [List.map_append, List.length_append]
    simp only [List.map_cons, List.map_nil, List.length_cons, List.length_nil]
    rw [List.range_succ]
    exact List.Perm.append_right _ hd
  | some i =>
    have hin : i ≤ cols.length := hv i rfl
    unfold denseOrdering createColumn insertColumnAt
    rw [List.map_append, List.length_append, shiftUpFrom_map_ordering]
    simp only [List.map_cons, List.map_nil, List.length_cons, List.length_nil,
      shiftUpFrom, List.length_map]
    have p1 : ((cols.map (fun c => c.columnOrdering)).map (ordUp i) ++ [i]).Perm
        (((List.range cols.length).map (ordUp i)) ++ [i]) :=
      List.Perm.append_right _ (hd.map (ordUp i))
    exact p1.trans (map_ordUp_range_perm cols.length i hin)

/-- Dense ordering is preserved by `deleteColumn`. -/
theorem denseOrdering_deleteColumn (cols : List ColumnMeta) (oid : Nat)
    (hd : denseOrdering cols) : denseOrdering (deleteColumn cols oid) := by
  unfold deleteColumn
  cases hrem : removeFirstColumn oid cols with
  | none => exact hd
  | some p =>
    obtain ⟨d, rest⟩ := p
    obtain ⟨hperm, _⟩ := removeFirstColumn_spec oid cols d rest hrem
    have hmapperm : (cols.map (fun c => c.columnOrdering)).Perm
        (d.columnOrdering :: rest.map (fun c => c.columnOrdering)) := by
      have := hperm.map (fun c => c.columnOrdering)
      simpa using this
    have hlen : cols.length = rest.length + 1 := by
      have := hperm.length_eq
      simpa using this
    have hcons : (d.columnOrdering :: rest.map (fun c => c.columnOrdering)).Perm
        (List.range (rest.length + 1)) := by
      have := (hmapperm.symm.trans hd)
      rwa [hlen] at this
    obtain ⟨hmem, hrest⟩ := List.cons_perm_iff_perm_erase.mp hcons
    have hlt : d.columnOrdering ≤ rest.length :=
      Nat.lt_succ_iff.mp (List.mem_range.mp hmem)
    unfold denseOrdering
    rw [shiftDownAfter_map_ordering]
    simp only [shiftDownAfter, List.length_map]
    exact (hrest.map (ordDown d.columnOrdering)).trans
      (erase_map_ordDown_perm rest.length d.columnOrdering hlt)

/-- Dense ordering is preserved by a valid `reorderColumn`. -/
theorem denseOrdering_reorderColumn (cols : List ColumnMeta) (oid oldOrdering : Nat)
    (newOrdering : Option Nat) (hd : denseOrdering cols)
    (hv : colOpValid cols (.reorder oid oldOrdering newOrdering) = true) :
    denseOrdering (reorderColumn cols oid oldOrdering newOrdering) := by
  unfold reorderColumn
  cases hrem : removeFirstColumn oid cols with
  | none => exact hd
  | some p =>
    obtain ⟨d, rest⟩ := p
    obtain ⟨hperm, hoid⟩ := removeFirstColumn_spec oid cols d rest hrem
    simp only [colOpValid, Bool.and_eq_true, List.all_eq_true] at hv
    obtain ⟨hall, hbound⟩ := hv
    have hdmem : d ∈ cols := hperm.mem_iff.mpr (List.mem_cons_self d rest)
    have hdord : d.columnOrdering = oldOrdering := by
      have := hall d hdmem
      rcases Bool.or_eq_true _ _ |>.mp this with h1 | h1
      · exfalso
        rw [hoid] at h1
        simp at h1
      · exact beq_iff_eq.mp h1
    have hmapperm : (cols.map (fun c => c.columnOrdering)).Perm
        (oldOrdering :: rest.map (fun c => c.columnOrdering)) := by
      have hm := hperm.map (fun c => c.columnOrdering)
      simp only [List.map_cons] at hm
      rw [hdord] at hm
      exact hm
    have hlen : cols.length = rest.length + 1 := by
      have := hperm.length_eq
      simpa using this
    have hcons : (oldOrdering :: rest.map (fun c => c.columnOrdering)).Perm
        (List.range (rest.length + 1)) := by
      have := (hmapperm.symm.trans hd)
      rwa [hlen] at this
    obtain ⟨hmem, hrest⟩ := List.cons_perm_iff_perm_erase.mp hcons
    have holt : oldOrdering ≤ rest.length :=
      Nat.lt_succ_iff.mp (List.mem_range.mp hmem)
    have hdown : ((shiftDownAfter oldOrdering rest).map (fun c => c.columnOrdering)).Perm
        (List.range rest.length) := by
      rw [shiftDownAfter_map_ordering]
      exact (hrest.map (ordDown oldOrdering)).trans
        (erase_map_ordDown_perm rest.length oldOrdering holt)
    have hlen2 : (shiftDownAfter oldOrdering rest).length = rest.length := by
      simp [shiftDownAfter]
    have hjle : newOrdering.getD rest.length ≤ rest.length := by
      cases hnew : newOrdering with
      | none => simp
      | some j0 =>
        have hb := hbound
        rw [hnew] at hb
        simp only [decide_eq_true_eq] at hb
        rw [hlen] at hb
        simpa using Nat.lt_succ_iff.mp hb
    show denseOrdering
      (insertColumnAt (shiftDownAfter oldOrdering rest)
        (newOrdering.getD (shiftDownAfter oldOrdering rest).length) d)
    rw [hlen2]
    unfold denseOrdering insertColumnAt
    rw [List.map_append, List.length_append, shiftUpFrom_map_ordering]
    simp only [List.map_cons, List.map_nil, List.length_cons, List.length_nil,
      shiftUpFrom, List.length_map, hlen2]
    have p1 : (((shiftDownAfter oldOrdering rest).map (fun c => c.columnOrdering)).map
          (ordUp (newOrdering.getD rest.length)) ++ [newOrdering.getD rest.length]).Perm
        (((List.range rest.length).map (ordUp (newOrdering.getD rest.length))) ++
          [newOrdering.getD rest.length]) :=
      List.Perm.append_right _ (hdown.map (ordUp (newOrdering.getD rest.length)))
    have p2 := p1.trans (map_ordUp_range_perm rest.length (newOrdering.getD rest.length) hjle)
    simpa using p2

/-- Dense ordering is preserved by one valid column operation. -/
theorem denseOrdering_applyColOp (cols : List ColumnMeta) (op : ColOp)
    (hd : denseOrdering cols) (hv : colOpValid cols op = true) :
    denseOrdering (applyColOp cols op) := by
  cases op with
  | create ordering c =>
    apply denseOrdering_createColumn cols ordering c hd
    intro i hi
    subst hi
    simpa [colOpValid] using hv
  | delete oid => exact denseOrdering_deleteColumn cols oid hd
  | reorder oid o n => exact denseOrdering_reorderColumn cols oid o n hd hv

/-- Dense ordering is preserved along any valid operation sequence. -/
theorem denseOrdering_applyColOps :
    ∀ (ops : List ColOp) (cols : List ColumnMeta),
      denseOrdering cols → colOpsValid cols ops = true →
      denseOrdering (applyColOps cols ops) := by
  intro ops
  induction ops with
  | nil =>
    intro cols hd _
    exact hd
  | cons op ops ih =>
    intro cols hd hv
    simp only [colOpsValid, Bool.and_eq_true] at hv
    exact ih _ (denseOrdering_applyColOp cols op hd hv.1) hv.2

/-- Witness column of the column-ordering scenarios. -/
def colW (oid ord : Nat) : ColumnMeta :=
  { oid := oid, name := monstersName, columnOrdering := ord,
    columnType := .primitive .Text, isNullable := true, isUnique := false,
    isPrimaryKey := false }

/-- Witness column list: a three-column table with dense orderings. -/
def cols3 : List ColumnMeta := [colW 10 0, colW 11 1, colW 12 2]

/-- Witness operation sequence: insert a column at position one, move the
column at position three to the end, then delete a column. -/
def opsW : List ColOp :=
  [.create (some 1) (colW 13 0), .reorder 12 3 none, .delete 11]

/-- C2: after any finite valid sequence of createColumn, deleteColumn and
reorderColumn operations starting from columns with dense orderings, the
ordering values remain a dense zero-based sequence with no gaps and no
duplicates; createColumn with a null ordering appends at the end, and with
a given ordering inserts at that position, shifting the orderings of later
columns up by one. -/
theorem column_ordering_dense :
    (∀ (cols : List ColumnMeta) (ops : List ColOp),
        denseOrdering cols → colOpsValid cols ops = true →
        denseOrdering (applyColOps cols ops)) ∧
    (∀ (cols : List ColumnMeta) (c : ColumnMeta),
        createColumn cols none c = cols ++ [{ c with columnOrdering := cols.length }]) ∧
    (∀ (cols : List ColumnMeta) (i : Nat) (c : ColumnMeta),
        createColumn cols (some i) c =
          cols.map (fun c0 =>
            if i ≤ c0.columnOrdering then
              { c0 with columnOrdering := c0.columnOrdering + 1 }
            else c0) ++ [{ c with columnOrdering := i }]) := by
  refine ⟨?_, ?_, ?_⟩
  · intro cols ops hd hv
    exact denseOrdering_applyColOps ops cols hd hv
  · intro cols c
    rfl
  · intro cols i c
    rfl

/-- Witness for C2: inserting a column at position one into a dense
three-column table, moving a column to the end and deleting a column keeps
the orderings dense. -/
theorem column_ordering_dense_witness :
    denseOrdering (applyColOps cols3 opsW) :=
  column_ordering_dense.1 cols3 opsW (by decide) (by decide)

/-
Helper lemmas for the streaming queries.
-/

theorem emitRows_eq_enumFrom (tableOid : Nat) (cols : List ColumnMeta) :
    ∀ (rs : List Row) (idx : Nat),
      emitRows tableOid cols idx rs =
        (List.enumFrom idx rs).flatMap (fun p =>
          TableCellChannelPacket.marker p.2.oid p.1 ::
            cols.map (fun col => TableCellChannelPacket.cell (mkCellPacket tableOid col p.2))) := by
  intro rs
  induction rs with
  | nil =>
    intro idx
    rfl
  | cons r rs ih =>
    intro idx
    simp only [emitRows, List.enumFrom, List.flatMap_cons, ih (idx + 1)]
    rfl

theorem countMarkers_emitRows (tableOid : Nat) (cols : List ColumnMeta) :
    ∀ (rs : List Row) (idx : Nat),
      (emitRows tableOid cols idx rs).countP isRowMarker = rs.length := by
  intro rs
  induction rs with
  | nil =>
    intro idx
    rfl
  | cons r rs ih =>
    intro idx
    have hcells : (cols.map
        (fun col => TableCellChannelPacket.cell (mkCellPacket tableOid col r))).countP
          isRowMarker = 0 := by
      rw [List.countP_eq_zero]
      intro a ha
      obtain ⟨col, _, rfl⟩ := List.mem_map.mp ha
      simp [isRowMarker]
    simp only [emitRows, List.countP_cons, List.countP_append, hcells, ih (idx + 1)]
    simp [isRowMarker, List.length_cons, Nat.add_comm]

/-- C3: the stream emitted by `getTableData(tableOid, parentRowOid,
pageNum, pageSize)` consists, in row order, of one marker per served row
carrying the row oid and its one-based position index, each marker followed
immediately by exactly one cell entry per visible column of that row;
pagination is one-indexed, and at most `pageSize` rows are emitted per
call. -/
theorem get_table_data_stream_shape :
    (∀ (db : Database) (t : Nat) (par : Option Nat) (pageNum pageSize : Nat),
        getTableData db t par pageNum pageSize =
          (List.enumFrom ((pageNum - 1) * pageSize + 1)
              (pageRows db t par pageNum pageSize)).flatMap
            (fun p => TableCellChannelPacket.marker p.2.oid p.1 ::
              (visibleColumns db t).map
                (fun col => TableCellChannelPacket.cell (mkCellPacket t col p.2)))) ∧
    (∀ (db : Database) (t : Nat) (par : Option Nat) (pageNum pageSize : Nat),
        (pageRows db t par pageNum pageSize).length ≤ pageSize) ∧
    (∀ (db : Database) (t : Nat) (par : Option Nat) (pageNum pageSize : Nat),
        (getTableData db t par pageNum pageSize).countP isRowMarker =
          (pageRows db t par pageNum pageSize).length) ∧
    (∀ (db : Database) (t : Nat) (par : Option Nat) (pageSize : Nat),
        pageRows db t par 1 pageSize = (scopedRows db t par).take pageSize) := by
  refine ⟨?_, ?_, ?_, ?_⟩
  · intro db t par pageNum pageSize
    exact emitRows_eq_enumFrom t (visibleColumns db t) _ _
  · intro db t par pageNum pageSize
    unfold pageRows
    have := List.length_take pageSize
      ((scopedRows db t par).drop ((pageNum - 1) * pageSize))
    rw [this]
    exact Nat.min_le_left _ _
  · intro db t par pageNum pageSize
    exact countMarkers_emitRows t (visibleColumns db t) _ _
  · intro db t par pageSize
    simp [pageRows]

/-- Witness cell value Goblin. -/
def goblinVal : Str := "Goblin".toList

/-- Witness column: a non-nullable unique Text column. -/
def colA : ColumnMeta :=
  { oid := 20, name := itemsName, columnOrdering := 0,
    columnType := .primitive .Text, isNullable := false, isUnique := true,
    isPrimaryKey := false }

/-- Witness cell of the witness row. -/
def cellA : Cell :=
  { columnOid := 20, value := some goblinVal, failedValidations := [] }

/-- Witness row holding one cell for the witness column. -/
def rowA : Row :=
  { oid := 7, parentRowOid := none, subtypeOid := none, cells := [cellA] }

/-- Witness table with one column and one row. -/
def tblR : Table :=
  { oid := 5, name := monstersName, masters := [], isObjectType := false,
    columns := [colA], rows := [rowA] }

/-- Witness database with one table, one column and one row. -/
def dbR : Database :=
  { tables := [tblR], dropdownLists := [] }

/-- C5: the first item emitted by `getTableRow(tableOid, rowOid)` reports
whether the row currently exists and, when it does, the concrete subtype it
resolves to; when the row does not exist the stream ends immediately after
that single item; otherwise the header is followed by exactly one cell
entry per column; and `getObjectData` emits the identical stream. -/
theorem get_table_row_stream_shape :
    (∀ (db : Database) (t r : Nat),
        resolveRow db t r = none →
        getTableRow db t r = [TableRowCellChannelPacket.header false t]) ∧
    (∀ (db : Database) (t r : Nat) (row : Row),
        resolveRow db t r = some row →
        getTableRow db t r =
          TableRowCellChannelPacket.header true (rowSubtype t row) ::
            (visibleColumns db (rowSubtype t row)).map
              (fun col => TableRowCellChannelPacket.cell (mkCellPacket t col row)
                col.columnOrdering) ∧
        (getTableRow db t r).length =
          1 + (visibleColumns db (rowSubtype t row)).length) ∧
    (∀ (db : Database) (t r : Nat), getObjectData db t r = getTableRow db t r) ∧
    (∀ (db : Database) (t r : Nat),
        (getTableRow db t r).head?.map isRowHeader = some true) := by
  refine ⟨?_, ?_, ?_, ?_⟩
  · intro db t r h
    simp [getTableRow, h]
  · intro db t r row h
    refine ⟨by simp [getTableRow, h], ?_⟩
    simp [getTableRow, h, Nat.add_comm]
  · intro db t r
    rfl
  · intro db t r
    unfold getTableRow
    cases h : resolveRow db t r <;> simp [isRowHeader]

/-- Witness for C5: in the witness database, reading the missing row eight
emits only a non-existence header, and reading the present row seven emits
a header followed by one cell per column. -/
theorem get_table_row_stream_shape_witness :
    getTableRow dbR 5 8 = [TableRowCellChannelPacket.header false 5] ∧
    (getTableRow dbR 5 7 =
      TableRowCellChannelPacket.header true (rowSubtype 5 rowA) ::
        (visibleColumns dbR (rowSubtype 5 rowA)).map
          (fun col => TableRowCellChannelPacket.cell (mkCellPacket 5 col rowA)
            col.columnOrdering) ∧
      (getTableRow dbR 5 7).length =
        1 + (visibleColumns dbR (rowSubtype 5 rowA)).length) :=
  ⟨get_table_row_stream_shape.1 dbR 5 8 (by decide),
   get_table_row_stream_shape.2.1 dbR 5 7 rowA (by decide)⟩

/-
Helper lemmas for cell writes.
-/

theorem find?_map_pres {α : Type} (p : α → Bool) (f : α → α)
    (hpres : ∀ a, p a = true → p (f a) = true)
    (hskip : ∀ a, p a = false → f a = a) :
    ∀ (l : List α) (a : α), l.find? p = some a → (l.map f).find? p = some (f a) := by
  intro l
  induction l with
  | nil =>
    intro a h
    simp at h
  | cons x xs ih =>
    intro a h
    by_cases hx : p x
    · rw [List.find?_cons_of_pos _ hx] at h
      obtain rfl : x = a := Option.some.inj h
      simp only [List.map_cons]
      rw [List.find?_cons_of_pos _ (hpres x hx)]
    · have hxf : p x = false := by simpa using hx
      rw [List.find?_cons_of_neg _ (by simp [hxf])] at h
      simp only [List.map_cons]
      rw [List.find?_cons_of_neg _ (by rw [hskip x hxf]; simp [hxf])]
      exact ih a h

theorem updateCellInTable_oid (db : Database) (t : Table) (rowOid columnOid : Nat)
    (v : Option Str) : (updateCellInTable db t rowOid columnOid v).oid = t.oid := by
  unfold updateCellInTable
  cases findColumnMeta t columnOid <;> rfl

/-- Reading a cell back after `updateTableCellStoredAsPrimitiveValue`
yields the written value together with the validation failures computed for
it, independent of whether the validation produced failures. -/
theorem readCell_update (db : Database) (tableOid rowOid columnOid : Nat) (v : Option Str)
    (t : Table) (col : ColumnMeta) (row : Row) (cell : Cell)
    (ht : findTable db tableOid = some t)
    (hcol : findColumnMeta t columnOid = some col)
    (hrow : t.rows.find? (fun r => r.oid == rowOid) = some row)
    (hcell : row.cells.find? (fun c => c.columnOid == columnOid) = some cell) :
    readCell (updateTableCellStoredAsPrimitiveValue db tableOid rowOid columnOid v)
        tableOid rowOid columnOid =
      some { cell with value := v,
                       failedValidations := validateCell db t col rowOid v } := by
  have htoid : (t.oid == tableOid) = true := by
    have := List.find?_some ht
    simpa using this
  have hroid : (row.oid == rowOid) = true := by
    have := List.find?_some hrow
    simpa using this
  have h1 : findTable (updateTableCellStoredAsPrimitiveValue db tableOid rowOid columnOid v)
      tableOid = some (updateCellInTable db t rowOid columnOid v) := by
    unfold findTable updateTableCellStoredAsPrimitiveValue
    have hh := find?_map_pres (fun x : Table => x.oid == tableOid)
      (fun x : Table =>
        if x.oid == tableOid then updateCellInTable db x rowOid columnOid v else x)
      (fun a ha => by simp [ha, updateCellInTable_oid])
      (fun a ha => by simp [ha])
      db.tables t ht
    simpa [htoid] using hh
  have h2 : (updateCellInTable db t rowOid columnOid v).rows.find? (fun r => r.oid == rowOid)
      = some { row with
                cells := writeCell columnOid v (validateCell db t col rowOid v) row.cells } := by
    have hh := find?_map_pres (fun r : Row => r.oid == rowOid)
      (fun r : Row =>
        if r.oid == rowOid then
          { r with cells := writeCell columnOid v (validateCell db t col rowOid v) r.cells }
        else r)
      (fun a ha => by simp [ha])
      (fun a ha => by simp [ha])
      t.rows row hrow
    have hrows_eq : (updateCellInTable db t rowOid columnOid v).rows
        = t.rows.map (fun r =>
            if r.oid == rowOid then
              { r with
                 cells := writeCell columnOid v (validateCell db t col rowOid v) r.cells }
            else r) := by
      unfold updateCellInTable
      rw [hcol]
    rw [hrows_eq]
    simpa [hroid] using hh
  have hcoid : (cell.columnOid == columnOid) = true := by
    have := List.find?_some hcell
    simpa using this
  have h3 : (writeCell columnOid v (validateCell db t col rowOid v) row.cells).find?
      (fun c => c.columnOid == columnOid)
      = some { cell with value := v,
                         failedValidations := validateCell db t col rowOid v } := by
    have hh := find?_map_pres (fun c : Cell => c.columnOid == columnOid)
      (fun c : Cell =>
        if c.columnOid == columnOid then
          { c with value := v, failedValidations := validateCell db t col rowOid v }
        else c)
      (fun a ha => by simp [ha])
      (fun a ha => by simp [ha])
      row.cells cell hcell
    unfold writeCell
    simpa [hcoid] using hh
  unfold readCell
  rw [h1]
  show ((updateCellInTable db t rowOid columnOid v).rows.find?
      (fun r => r.oid == rowOid)).bind
        (fun r => r.cells.find? (fun c => c.columnOid == columnOid)) = _
  rw [h2]
  exact h3

/-- C6: writing a primitive value to a cell with
`updateTableCellStoredAsPrimitiveValue(t, r, c, v)` and then reading that
cell back yields a stored true value equal to `v`, and in particular a null
true value when `v` was null. -/
theorem cell_write_roundtrip :
    ∀ (db : Database) (tableOid rowOid columnOid : Nat) (v : Option Str)
      (t : Table) (col : ColumnMeta) (row : Row) (cell : Cell),
      findTable db tableOid = some t →
      findColumnMeta t columnOid = some col →
      t.rows.find? (fun r => r.oid == rowOid) = some row →
      row.cells.find? (fun c => c.columnOid == columnOid) = some cell →
      (readCell (updateTableCellStoredAsPrimitiveValue db tableOid rowOid columnOid v)
          tableOid rowOid columnOid).map Cell.value = some v := by
  intro db tableOid rowOid columnOid v t col row cell ht hcol hrow hcell
  rw [readCell_update db tableOid rowOid columnOid v t col row cell ht hcol hrow hcell]
  rfl

/-- Witness for C6 at the witness database: writing null and writing a
concrete value to the cell of row seven, column twenty both read back
exactly as written. -/
theorem cell_write_roundtrip_witness :
    (readCell (updateTableCellStoredAsPrimitiveValue dbR 5 7 20 none) 5 7 20).map
        Cell.value = some none ∧
    (readCell (updateTableCellStoredAsPrimitiveValue dbR 5 7 20 (some itemsName)) 5 7 20).map
        Cell.value = some (some itemsName) :=
  ⟨cell_write_roundtrip dbR 5 7 20 none tblR colA rowA cellA
      (by decide) (by decide) (by decide) (by decide),
   cell_write_roundtrip dbR 5 7 20 (some itemsName) tblR colA rowA cellA
      (by decide) (by decide) (by decide) (by decide)⟩

/-- C4: every cell write runs all applicable validation checks in the
stated order, nullability, then uniqueness, then primary key, then
type-specific, accumulating every applicable failure without
short-circuiting; the failures are advisory only: they are recorded on the
stored cell together with the written value, which is stored regardless of
the validation outcome, and the UI surfaces every recorded failure in the
error tooltip of the cell, which is present exactly when there is at least
one failure. -/
theorem validation_accumulates_never_blocks :
    (∀ (db : Database) (t : Table) (col : ColumnMeta) (rowOid : Nat) (v : Option Str),
        validateCell db t col rowOid v =
          checkNullability col v ++
            (checkUniqueness t col rowOid v ++
              (checkPrimaryKey t col rowOid v ++ checkTypeSpecific db col v))) ∧
    (∀ (db : Database) (tableOid rowOid columnOid : Nat) (v : Option Str)
        (t : Table) (col : ColumnMeta) (row : Row) (cell : Cell),
        findTable db tableOid = some t →
        findColumnMeta t columnOid = some col →
        t.rows.find? (fun r => r.oid == rowOid) = some row →
        row.cells.find? (fun c => c.columnOid == columnOid) = some cell →
        readCell (updateTableCellStoredAsPrimitiveValue db tableOid rowOid columnOid v)
            tableOid rowOid columnOid =
          some { cell with value := v,
                           failedValidations := validateCell db t col rowOid v }) ∧
    (∀ fails : List Str, fails ≠ [] →
        renderValidationTooltip fails = some ((fails.intersperse newlineStr).flatten)) ∧
    (∀ fails : List Str, renderValidationTooltip fails = none ↔ fails = []) := by
  refine ⟨?_, ?_, ?_, ?_⟩
  · intro db t col rowOid v
    simp [validateCell, validationChecks]
  · intro db tableOid rowOid columnOid v t col row cell ht hcol hrow hcell
    exact readCell_update db tableOid rowOid columnOid v t col row cell ht hcol hrow hcell
  · intro fails h
    have hpos : 0 < fails.length := List.length_pos.mpr h
    simp [renderValidationTooltip, hpos]
  · intro fails
    cases fails <;> simp [renderValidationTooltip]

/-- Witness for C4: writing null into the non-nullable witness column
stores the null value together with the accumulated nullability failure,
and the tooltip renders that failure. -/
theorem validation_accumulates_never_blocks_witness :
    readCell (updateTableCellStoredAsPrimitiveValue dbR 5 7 20 none) 5 7 20 =
      some { cellA with value := none,
                        failedValidations := validateCell dbR tblR colA 7 none } ∧
    renderValidationTooltip [msgValueRequired] =
      some (([msgValueRequired].intersperse newlineStr).flatten) :=
  ⟨validation_accumulates_never_blocks.2.1 dbR 5 7 20 none tblR colA rowA cellA
      (by decide) (by decide) (by decide) (by decide),
   validation_accumulates_never_blocks.2.2.1 [msgValueRequired] (by decide)⟩

/-- Witness name with surrounding whitespace. -/
def spacedMonsters : Str := " Monsters ".toList

/-- Witness name consisting only of whitespace. -/
def blankName : Str := "   ".toList

/-- C7 counterexample: the create dialog of src/src/frontend/tables.ts
dispatches the entered name exactly as entered, so for a name with
surrounding whitespace the dispatched name is not the trimmed name; hence
the claim that the create/edit dialogs trim the entered name before
dispatching fails on this dialog, while the dialog of src/unnamed/part_002
does dispatch the trimmed name. -/
theorem tables_dialog_untrimmed_dispatch :
    tablesTsCreateTableName spacedMonsters = some spacedMonsters ∧
    jsTrim spacedMonsters ≠ spacedMonsters ∧
    dialogCreateTableName spacedMonsters = some (jsTrim spacedMonsters) := by
  decide

/-- C7 amended: `createTable` and `editTableMetadata` fail with
`NameRequiredError` whenever the supplied name is empty or whitespace-only,
committing nothing in that case; both create dialogs never dispatch the
action when the trimmed name is empty; and on a non-empty trimmed name the
dialog of src/unnamed/part_002 dispatches the trimmed name while the
dialog of src/src/frontend/tables.ts dispatches the name as entered. -/
theorem name_required_and_dialog_guards :
    (∀ (db : Database) (name : Str) (masters : List Nat), jsTrim name = [] →
        createTable db name masters = Except.error DbError.NameRequiredError) ∧
    (∀ (db : Database) (t : Nat) (name : Str) (masters : List Nat), jsTrim name = [] →
        editTableMetadata db t name masters = Except.error DbError.NameRequiredError) ∧
    (∀ entered : Str, jsTrim entered = [] →
        dialogCreateTableName entered = none ∧ tablesTsCreateTableName entered = none) ∧
    (∀ entered : Str, jsTrim entered ≠ [] →
        dialogCreateTableName entered = some (jsTrim entered) ∧
        tablesTsCreateTableName entered = some entered) := by
  refine ⟨?_, ?_, ?_, ?_⟩
  · intro db name masters h
    simp [createTable, h]
  · intro db t name masters h
    simp [editTableMetadata, h]
  · intro entered h
    constructor
    · simp [dialogCreateTableName, h]
    · simp [tablesTsCreateTableName, h]
  · intro entered h
    have hne : entered ≠ [] := by
      intro he
      apply h
      rw [he]
      rfl
    constructor
    · simp [dialogCreateTableName, h]
    · simp [tablesTsCreateTableName, hne, h]

/-- Witness for the amended C7: a whitespace-only name is rejected by the
store and dispatched by neither dialog, and a name with surrounding
whitespace is dispatched trimmed by one dialog and as entered by the
other. -/
theorem name_required_and_dialog_guards_witness :
    createTable dbW blankName [] = Except.error DbError.NameRequiredError ∧
    editTableMetadata dbW 1 blankName [] = Except.error DbError.NameRequiredError ∧
    (dialogCreateTableName blankName = none ∧
      tablesTsCreateTableName blankName = none) ∧
    (dialogCreateTableName spacedMonsters = some (jsTrim spacedMonsters) ∧
      tablesTsCreateTableName spacedMonsters = some spacedMonsters) :=
  ⟨name_required_and_dialog_guards.1 dbW blankName [] (by decide),
   name_required_and_dialog_guards.2.1 dbW 1 blankName [] (by decide),
   name_required_and_dialog_guards.2.2.1 blankName (by decide),
   name_required_and_dialog_guards.2.2.2 spacedMonsters (by decide)⟩

/-- C9: the `Action` union requires every `insertTableRow` payload to carry
the parent-row scope field, but the Insert New Row context-menu dispatch of
src/unnamed/part_005 omits it: the dispatched payload lacks the required
`parentRowOid` field. -/
theorem insert_row_dispatch_missing_parent_scope :
    fieldParentRowOid ∈ insertTableRowRequiredFields ∧
    fieldParentRowOid ∉ insertRowContextMenuFields := by
  decide

/-- Whether the final empty-to-null conversion yields null or a non-empty
string, for every input. -/
theorem emptyToNull_spec (v : Option Str) :
    emptyToNull v = none ∨ ∃ s, emptyToNull v = some s ∧ s ≠ [] := by
  cases v with
  | none => exact Or.inl rfl
  | some s =>
    by_cases h : s = []
    · exact Or.inl (by simp [emptyToNull, h])
    · exact Or.inr ⟨s, by simp [emptyToNull, h], h⟩

/-- C10: every `updateTableCellStoredAsPrimitiveValue` action dispatched by
the cell editors carries either null or a non-empty string: free-text input
is trimmed of trailing whitespace and an empty result is converted to null,
an empty dropdown selection is dispatched as null, and the Boolean editor
dispatches only the non-empty strings one and zero; the empty string is
never dispatched as a stored cell value. -/
theorem dispatched_cell_values_null_or_nonempty :
    (∀ (js : JsDate) (kind : PrimitiveKind) (text : Str),
        setCellPrimitiveValueDispatch js kind text = none ∨
          ∃ s, setCellPrimitiveValueDispatch js kind text = some s ∧ s ≠ []) ∧
    (∀ (js : JsDate) (kind : PrimitiveKind) (raw : Str),
        focusoutDispatch js kind raw = none ∨
          ∃ s, focusoutDispatch js kind raw = some s ∧ s ≠ []) ∧
    (∀ selected : Str,
        dropdownChangeDispatch selected = none ∨
          ∃ s, dropdownChangeDispatch selected = some s ∧ s ≠ []) ∧
    (∀ (js : JsDate) (kind : PrimitiveKind) (text : Str), jsTrimEnd text = [] →
        setCellPrimitiveValueDispatch js kind text = none) ∧
    dropdownChangeDispatch [] = none ∧
    (∀ checked : Bool, ∃ s, booleanInputDispatch checked = some s ∧ s ≠ []) ∧
    (∃ s, booleanNullClickDispatch = some s ∧ s ≠ []) := by
  refine ⟨?_, ?_, ?_, ?_, ?_, ?_, ?_⟩
  · intro js kind text
    exact emptyToNull_spec (normalizePrimitiveValue js kind (some (jsTrimEnd text)))
  · intro js kind raw
    exact emptyToNull_spec
      (some (match kind with
        | PrimitiveKind.Date =>
          match js.parse (jsTrimEnd raw) with
          | some time => js.toISOString time
          | none => jsTrimEnd raw
        | PrimitiveKind.Timestamp =>
          match js.parse (jsTrimEnd raw) with
          | some time => js.toISOString time
          | none => jsTrimEnd raw
        | _ => jsTrimEnd raw))
  · intro selected
    exact emptyToNull_spec (some selected)
  · intro js kind text h
    simp [setCellPrimitiveValueDispatch, normalizePrimitiveValue, emptyToNull, h]
  · rfl
  · intro checked
    cases checked
    · exact ⟨strZero, rfl, by decide⟩
    · exact ⟨strOne, rfl, by decide⟩
  · exact ⟨strOne, rfl, by decide⟩

/-- Witness for C10: a whitespace-only free-text edit of a Text cell is
dispatched as null. -/
theorem dispatched_cell_values_null_or_nonempty_witness :
    setCellPrimitiveValueDispatch
        { parse := fun _ => none, toISOString := fun _ => [] } PrimitiveKind.Text
        blankName = none :=
  dispatched_cell_values_null_or_nonempty.2.2.2.1
    { parse := fun _ => none, toISOString := fun _ => [] } PrimitiveKind.Text
    blankName (by decide)

/-- Witness raw text of a date edit, with trailing whitespace. -/
def dateRawW : Str := "2020-01-03 ".toList

/-- Witness ISO-8601 rendering of the witness date. -/
def isoW : Str := "2020-01-03T00:00:00.000Z".toList

/-- Witness date facilities: exactly the trimmed witness text parses, and
parsed times render to the witness ISO string. -/
def jsW : JsDate :=
  { parse := fun s => if s = jsTrimEnd dateRawW then some 42 else none,
    toISOString := fun _ => isoW }

/-- C8: value normalization is performed by the caller, not the store: for
every edit of a Date- or Timestamp-typed cell whose text does not trim to
empty, both cell editors dispatch the ISO-8601 rendering when `Date.parse`
accepts the trimmed text and otherwise dispatch the text unchanged apart
from trailing-whitespace trimming; and the store stores the dispatched
string exactly as given. -/
theorem date_normalization_by_ui :
    (∀ (js : JsDate) (kind : PrimitiveKind) (text : Str),
        (kind = PrimitiveKind.Date ∨ kind = PrimitiveKind.Timestamp) →
        (∀ tm, js.toISOString tm ≠ []) →
        jsTrimEnd text ≠ [] →
        setCellPrimitiveValueDispatch js kind text =
          (match js.parse (jsTrimEnd text) with
           | some time => some (js.toISOString time)
           | none => some (jsTrimEnd text))) ∧
    (∀ (js : JsDate) (kind : PrimitiveKind) (raw : Str),
        (kind = PrimitiveKind.Date ∨ kind = PrimitiveKind.Timestamp) →
        (∀ tm, js.toISOString tm ≠ []) →
        jsTrimEnd raw ≠ [] →
        focusoutDispatch js kind raw =
          (match js.parse (jsTrimEnd raw) with
           | some time => some (js.toISOString time)
           | none => some (jsTrimEnd raw))) ∧
    (∀ (js : JsDate) (kind : PrimitiveKind) (text : Str)
        (db : Database) (tableOid rowOid columnOid : Nat)
        (t : Table) (col : ColumnMeta) (row : Row) (cell : Cell),
        findTable db tableOid = some t →
        findColumnMeta t columnOid = some col →
        t.rows.find? (fun r => r.oid == rowOid) = some row →
        row.cells.find? (fun c => c.columnOid == columnOid) = some cell →
        (readCell (updateTableCellStoredAsPrimitiveValue db tableOid rowOid columnOid
              (setCellPrimitiveValueDispatch js kind text)) tableOid rowOid columnOid).map
            Cell.value = some (setCellPrimitiveValueDispatch js kind text)) := by
  refine ⟨?_, ?_, ?_⟩
  · intro js kind text hkind hiso htext
    rcases hkind with rfl | rfl <;>
      (cases hp : js.parse (jsTrimEnd text) with
       | some time =>
         simp [setCellPrimitiveValueDispatch, normalizePrimitiveValue, emptyToNull,
           htext, hp, hiso time]
       | none =>
         simp [setCellPrimitiveValueDispatch, normalizePrimitiveValue, emptyToNull,
           htext, hp])
  · intro js kind raw hkind hiso hraw
    rcases hkind with rfl | rfl <;>
      (unfold focusoutDispatch
       cases hp : js.parse (jsTrimEnd raw) with
       | some time => simp [hp, hiso time]
       | none => simp [hp, hraw])
  · intro js kind text db tableOid rowOid columnOid t col row cell ht hcol hrow hcell
    rw [readCell_update db tableOid rowOid columnOid _ t col row cell ht hcol hrow hcell]
    rfl

/-- Witness for C8: the witness date edit with trailing whitespace is
dispatched as its ISO rendering, and the store stores the dispatched string
verbatim in the witness database. -/
theorem date_normalization_by_ui_witness :
    setCellPrimitiveValueDispatch jsW PrimitiveKind.Date dateRawW =
      (match jsW.parse (jsTrimEnd dateRawW) with
       | some time => some (jsW.toISOString time)
       | none => some (jsTrimEnd dateRawW)) ∧
    (readCell (updateTableCellStoredAsPrimitiveValue dbR 5 7 20
        (setCellPrimitiveValueDispatch jsW PrimitiveKind.Date dateRawW)) 5 7 20).map
      Cell.value = some (setCellPrimitiveValueDispatch jsW PrimitiveKind.Date dateRawW) :=
  ⟨date_normalization_by_ui.1 jsW PrimitiveKind.Date dateRawW (Or.inl rfl)
      (fun tm => by
        show isoW ≠ []
        decide)
      (by decide),
   date_normalization_by_ui.2.2 jsW PrimitiveKind.Date dateRawW dbR 5 7 20 tblR colA rowA
      cellA (by decide) (by decide) (by decide) (by decide)⟩

end DungeonDB
